import Mathlib

/-!
Shallow embedding of the NPM-DomainCheckScript repository
(`scripts/npm_domain_check.py` and `scripts/remove_domain_column.py`).

The reconciliation pass of `npm_domain_check.py` (STEP 5.3 to STEP 6 of
`main`) is modelled as a pure function `runPass` over a state holding the
`access_list_client` rows and the JSON snapshot (`domain_map`).  DNS is a
function parameter `dns : String → Option String` standing for
`socket.gethostbyname` (`none` models a lookup exception).  Python dicts
are modelled as association lists with insertion-order preserving update,
matching Python dict semantics.  Python truthiness of optional strings
(`None` and `""` are falsy) is modelled by `truthy`.
-/

namespace NpmDomainCheck

/-- Python truthiness of an optional string: `None` and `""` are falsy. -/
def truthy : Option String → Bool
  | none => false
  | some s => !s.isEmpty

/-- A row of `access_list_client` as fetched by STEP 5.2 of `main`:
`SELECT id, domain, address FROM access_list_client`. -/
structure Row where
  id : Nat
  domain : Option String
  address : Option String
deriving Repr, DecidableEq

/-- `address.split("/")[0]`: the IP part of a CIDR address string, i.e.
the characters before the first `/` (the whole string when there is
none). -/
def stripCidr (a : String) : String :=
  String.mk (a.toList.takeWhile (fun c => c ≠ '/'))

/-- The key a row is indexed under in `table_by_ip` (STEP 5.3): the
stripped IP when the address is truthy, `none` otherwise. -/
def rowIp (r : Row) : Option String :=
  if truthy r.address then some (stripCidr (r.address.getD "")) else none

/-- The `domain_map` snapshot: a Python dict from IP string to domain
string, as an insertion-ordered association list. -/
abbrev Snap := List (String × String)

/-- Dict lookup (first matching key). -/
def dlookup : Snap → String → Option String
  | [], _ => none
  | p :: rest, k => if p.1 = k then some p.2 else dlookup rest k

/-- Dict membership (`k in d`). -/
def dmem (m : Snap) (k : String) : Bool := (dlookup m k).isSome

/-- Replace the value at every occurrence of key `k`. -/
def dreplace : Snap → String → String → Snap
  | [], _, _ => []
  | p :: rest, k, v =>
    if p.1 = k then (k, v) :: dreplace rest k v else p :: dreplace rest k v

/-- Python dict assignment `d[k] = v`: replace in place when the key is
present, append at the end otherwise. -/
def dinsert (m : Snap) (k v : String) : Snap :=
  if dmem m k then dreplace m k v else m ++ [(k, v)]

/-- Python dict deletion `del d[k]`. -/
def derase (m : Snap) (k : String) : Snap := m.filter (fun p => p.1 != k)

/-- `table_by_ip`: dict from optional IP to row. -/
abbrev Index := List (Option String × Row)

/-- Lookup in `table_by_ip`. -/
def tlookup : Index → Option String → Option Row
  | [], _ => none
  | p :: rest, k => if p.1 = k then some p.2 else tlookup rest k

/-- Assignment into `table_by_ip` (later rows overwrite earlier ones
with the same IP, as in a Python dict). -/
def tinsert (m : Index) (k : Option String) (r : Row) : Index :=
  if (tlookup m k).isSome
  then m.map (fun p => if p.1 = k then (k, r) else p)
  else m ++ [(k, r)]

/-- STEP 5.3 of `main`: build the dict from each row's current stripped
IP (or `None`) to the row. -/
def table_by_ip (rows : List Row) : Index :=
  rows.foldl (fun m r => tinsert m (rowIp r) r) []

/-- One iteration of STEP 5.4 of `main` (restore missing domains from
config), for one `(ip, domain)` item of the snapshot copy: drop the pair
from the live snapshot when its IP matches no row; for a matching row
whose stored domain differs from the snapshot's value, record an
`UPDATE access_list_client SET domain=... WHERE id=...`. -/
def restoreOne (idx : Index) (acc : Snap × List (Nat × String))
    (p : String × String) : Snap × List (Nat × String) :=
  match tlookup idx (some p.1) with
  | none => (derase acc.1 p.1, acc.2)
  | some r =>
    if r.domain = some p.2 then acc
    else (acc.1, acc.2 ++ [(r.id, p.2)])

/-- The whole restore step: fold `restoreOne` over a copy of the
snapshot's items, starting from the live snapshot and no updates. -/
def restoreStep (idx : Index) (snap : Snap) : Snap × List (Nat × String) :=
  snap.foldl (restoreOne idx) (snap, [])

/-- The `sed` invocations issued by `update_ip_in_container`: it returns
early when either IP is falsy, so no substitution happens then. -/
def sedCalls (ipOld : Option String) (ipNew : String) : List (String × String) :=
  match ipOld with
  | none => []
  | some o => if o.isEmpty || ipNew.isEmpty then [] else [(o, ipNew)]

/-- Accumulator of STEP 5.5 of `main` (resolve domains and update IPs):
the live snapshot plus the effects issued so far. -/
structure ResAcc where
  snap : Snap
  addrUpds : List (Nat × String)
  patches : List (String × String)
  reload : Bool
  count : Nat
deriving Repr, DecidableEq

/-- One iteration of the STEP 5.5 loop, for row `r` (the in-memory row
as fetched in STEP 5.2, not the possibly restored database row). -/
def resolveRow (dns : String → Option String) (acc : ResAcc) (r : Row) : ResAcc :=
  if truthy r.domain then
    match dns (r.domain.getD "") with
    | none => acc
    | some ipNew =>
      if ipNew.isEmpty then acc
      else
        let ipOld := rowIp r
        let acc1 :=
          if some ipNew ≠ ipOld then
            { acc with
              addrUpds := acc.addrUpds ++ [(r.id, ipNew ++ "/32")],
              patches := acc.patches ++ sedCalls ipOld ipNew,
              reload := true,
              count := acc.count + 1 }
          else acc
        let s1 := dinsert acc1.snap ipNew (r.domain.getD "")
        let s2 :=
          match ipOld with
          | none => s1
          | some ipo => if dmem s1 ipo && ipo != ipNew then derase s1 ipo else s1
        { acc1 with snap := s2 }
  else acc

/-- The database and snapshot state a pass operates on. -/
structure St where
  rows : List Row
  snap : Snap
deriving Repr, DecidableEq

/-- Effects of one pass: domain updates issued by the restore step,
address updates, `sed` patches, the reload flag and `updated_count`. -/
structure Effects where
  domainUpds : List (Nat × String)
  addrUpds : List (Nat × String)
  patches : List (String × String)
  reload : Bool
  updatedCount : Nat
deriving Repr, DecidableEq

/-- Effect of one `UPDATE ... SET domain=%s WHERE id=%s` on one row. -/
def domUpdRow (u : Nat × String) (r : Row) : Row :=
  if r.id = u.1 then { r with domain := some u.2 } else r

/-- Effect of one `UPDATE ... SET address=%s WHERE id=%s` on one row. -/
def addrUpdRow (u : Nat × String) (r : Row) : Row :=
  if r.id = u.1 then { r with address := some u.2 } else r

/-- Apply one `UPDATE access_list_client SET domain=%s WHERE id=%s`. -/
def applyDomainUpd (rows : List Row) (u : Nat × String) : List Row :=
  rows.map (domUpdRow u)

/-- Apply one `UPDATE access_list_client SET address=%s WHERE id=%s`. -/
def applyAddrUpd (rows : List Row) (u : Nat × String) : List Row :=
  rows.map (addrUpdRow u)

/-- One reconciliation pass (STEP 5.3 through the final commit):
index the rows, run the restore step, run the resolution loop over the
in-memory rows, and commit all issued row updates.  The resulting state
is the database rows after the commit and the saved snapshot. -/
def runPass (dns : String → Option String) (s : St) : St × Effects :=
  let idx := table_by_ip s.rows
  let rs := restoreStep idx s.snap
  let racc := s.rows.foldl (resolveRow dns) ⟨rs.1, [], [], false, 0⟩
  let rows1 := rs.2.foldl applyDomainUpd s.rows
  let rows2 := racc.addrUpds.foldl applyAddrUpd rows1
  (⟨rows2, racc.snap⟩,
   ⟨rs.2, racc.addrUpds, racc.patches, racc.reload, rs.2.length + racc.count⟩)

/-- The externally observable events of one pass, in program order:
row updates (restore step, then resolution loop with each address update
immediately followed by its `sed` patch), then `save_config`, then
`conn.commit()`, then — when the flag was set — `nginx -s reload`. -/
inductive Ev where
  | updDomain (id : Nat) (d : String)
  | updAddr (id : Nat) (a : String)
  | sedPatch (oldIp newIp : String)
  | saveSnap
  | dbCommit
  | nginxReload
deriving Repr, DecidableEq

/-- The address update the STEP 5.5 loop issues for a single row,
computed from that row and the DNS answers alone. -/
def rowAddrUpd (dns : String → Option String) (r : Row) : List (Nat × String) :=
  if truthy r.domain then
    match dns (r.domain.getD "") with
    | none => []
    | some ipNew =>
      if ipNew.isEmpty then []
      else if some ipNew ≠ rowIp r then [(r.id, ipNew ++ "/32")] else []
  else []

/-- The `sed` patches the STEP 5.5 loop issues for a single row. -/
def rowPatches (dns : String → Option String) (r : Row) : List (String × String) :=
  if truthy r.domain then
    match dns (r.domain.getD "") with
    | none => []
    | some ipNew =>
      if ipNew.isEmpty then []
      else if some ipNew ≠ rowIp r then sedCalls (rowIp r) ipNew else []
  else []

/-- Events a single row contributes in the resolution loop: its address
update followed by its `sed` patch. -/
def rowEvents (dns : String → Option String) (r : Row) : List Ev :=
  (rowAddrUpd dns r).map (fun u => Ev.updAddr u.1 u.2)
    ++ (rowPatches dns r).map (fun p => Ev.sedPatch p.1 p.2)

/-- The full event trace of one pass, in the program order of `main`:
restore-step updates, resolution-loop updates and patches, then
`save_config(domain_map)`, then `conn.commit()`, then the conditional
`reload_nginx`. -/
def passEvents (dns : String → Option String) (s : St) : List Ev :=
  let rs := restoreStep (table_by_ip s.rows) s.snap
  let racc := s.rows.foldl (resolveRow dns) ⟨rs.1, [], [], false, 0⟩
  rs.2.map (fun u => Ev.updDomain u.1 u.2)
    ++ s.rows.flatMap (rowEvents dns)
    ++ [Ev.saveSnap, Ev.dbCommit]
    ++ (if racc.reload then [Ev.nginxReload] else [])

/-- The state of the snapshot file as seen by `load_config`. -/
inductive ConfigFile where
  | absent
  | unreadable
  | content (text : String)
deriving Repr, DecidableEq

/-- `load_config`: `{}` when the file does not exist, and `{}` when the
bare `except` catches a read or JSON-parse error; the parsed mapping
otherwise.  `parseJson` abstracts `json.load` (`none` = raises). -/
def load_config (parseJson : String → Option Snap) : ConfigFile → Snap
  | .absent => []
  | .unreadable => []
  | .content t =>
    match parseJson t with
    | some m => m
    | none => []

/-- The external conditions that decide the exit code of either script. -/
structure SysEnv where
  mysqlDriver : Bool
  dockerPsOk : Bool
  containerListed : Bool
  dockerEnvOk : Bool
  containerEnv : List (String × String)
  dbConnectOk : Bool
  domainColumnExists : Bool
  alterTableOk : Bool
deriving Repr, DecidableEq

/-- The environment variables both scripts require in the container. -/
def requiredVars : List String :=
  ["DB_MYSQL_HOST", "DB_MYSQL_PORT", "DB_MYSQL_NAME", "DB_MYSQL_USER",
   "DB_MYSQL_PASSWORD"]

/-- Whether the container environment defines variable `k`. -/
def hasVar (env : List (String × String)) (k : String) : Bool :=
  env.any (fun p => p.1 == k)

/-- Exit code of `npm_domain_check.py`, following its checks in order:
driver import, `docker ps` query, container existence (exit 0 when
absent), `docker exec env`, required variables, DB connection, and the
column-creation fallback; resolution and reload failures are non-fatal. -/
def npm_domain_check_exit (e : SysEnv) : Nat :=
  if !e.mysqlDriver then 1
  else if !e.dockerPsOk then 1
  else if !e.containerListed then 0
  else if !e.dockerEnvOk then 1
  else if (requiredVars.filter (fun v => !hasVar e.containerEnv v)) ≠ [] then 1
  else if !e.dbConnectOk then 1
  else if !e.domainColumnExists && !e.alterTableOk then 1
  else 0

/-- Exit code of `remove_domain_column.py`, following its checks in
order; unlike `npm_domain_check.py` it exits 1 when the container is
absent, and exits 0 when the `domain` column does not exist. -/
def remove_domain_column_exit (e : SysEnv) : Nat :=
  if !e.mysqlDriver then 1
  else if !e.dockerPsOk then 1
  else if !e.containerListed then 1
  else if !e.dockerEnvOk then 1
  else if (requiredVars.filter (fun v => !hasVar e.containerEnv v)) ≠ [] then 1
  else if !e.dbConnectOk then 1
  else if !e.domainColumnExists then 0
  else if !e.alterTableOk then 1
  else 0

/-- Whether the STEP 5.5 iteration for row `r` resolves `r`'s domain to
exactly `ip` (and hence writes `snapshot[ip]`). -/
def rowResolvesTo (dns : String → Option String) (r : Row) (ip : String) : Bool :=
  if truthy r.domain then
    match dns (r.domain.getD "") with
    | none => false
    | some ipNew => if ipNew.isEmpty then false else ipNew == ip
  else false

/-- Whether the STEP 5.5 iteration for row `r` can write or delete the
snapshot entry at key `ip`: it does so only when it resolves to `ip`
or its previous IP is `ip`. -/
def rowTouches (dns : String → Option String) (r : Row) (ip : String) : Bool :=
  if truthy r.domain then
    match dns (r.domain.getD "") with
    | none => false
    | some ipNew =>
      if ipNew.isEmpty then false else (ipNew == ip || rowIp r == some ip)
  else false

/-- Events that mutate a row of the relational store or patch the
generated configuration, as opposed to commit, save and reload. -/
def isRowMutation : Ev → Bool
  | .updDomain _ _ => true
  | .updAddr _ _ => true
  | .sedPatch _ _ => true
  | _ => false

/-- DNS oracle of the concrete scenarios: `a.example.com` resolves to
`10.0.0.2`, everything else fails. -/
def dnsA : String → Option String :=
  fun d => if d = "a.example.com" then some "10.0.0.2" else none

/-- Concrete state of the spec's worked example (claim C6). -/
def exSt : St := ⟨[⟨1, some "a.example.com", some "10.0.0.1/32"⟩], []⟩

/-- Concrete state with an externally cleared domain whose IP is still
remembered by the snapshot. -/
def clearedSt : St :=
  ⟨[⟨1, none, some "10.0.0.1/32"⟩], [("10.0.0.1", "a.example.com")]⟩

/-- Concrete state whose single row already has the resolved IP but with
a `/24` suffix. -/
def suffixSt : St := ⟨[⟨1, some "a.example.com", some "10.0.0.2/24"⟩], []⟩

/-- DNS oracle resolving `d.example.com` to `9.9.9.9`. -/
def dnsD : String → Option String :=
  fun d => if d = "d.example.com" then some "9.9.9.9" else none

/-- Concrete state with a stale snapshot pair whose IP is re-adopted by
a row that currently has no address. -/
def staleSt : St :=
  ⟨[⟨1, some "d.example.com", none⟩], [("9.9.9.9", "d.example.com")]⟩

/-- DNS oracle for the failure-isolation scenario: `b.example.com`
fails, `a.example.com` resolves. -/
def dnsFail : String → Option String :=
  fun d => if d = "a.example.com" then some "10.0.0.2" else none

/-- Two-row state: the first row's domain is unresolvable, the second
row's domain resolves to a new IP. -/
def twoRowSt : St :=
  ⟨[⟨1, some "b.example.com", some "10.0.0.9/32"⟩,
    ⟨2, some "a.example.com", some "10.0.0.1/32"⟩], []⟩

/-- A fully healthy environment except that the container is absent. -/
def envAbsent : SysEnv :=
  ⟨true, true, false, true,
   [("DB_MYSQL_HOST", "h"), ("DB_MYSQL_PORT", "3306"),
    ("DB_MYSQL_NAME", "n"), ("DB_MYSQL_USER", "u"),
    ("DB_MYSQL_PASSWORD", "p")], true, true, true⟩

/-- A fully healthy environment. -/
def envOk : SysEnv :=
  ⟨true, true, true, true,
   [("DB_MYSQL_HOST", "h"), ("DB_MYSQL_PORT", "3306"),
    ("DB_MYSQL_NAME", "n"), ("DB_MYSQL_USER", "u"),
    ("DB_MYSQL_PASSWORD", "p")], true, true, true⟩

/-- A healthy environment whose database connection fails. -/
def envNoDb : SysEnv :=
  ⟨true, true, true, true,
   [("DB_MYSQL_HOST", "h"), ("DB_MYSQL_PORT", "3306"),
    ("DB_MYSQL_NAME", "n"), ("DB_MYSQL_USER", "u"),
    ("DB_MYSQL_PASSWORD", "p")], false, true, true⟩

/-- An environment without the MySQL driver installed. -/
def envNoDriver : SysEnv :=
  ⟨false, true, true, true, [], true, true, true⟩

/-- A state on which the pass performs no mutation at all: the row's
address already matches its resolution and the snapshot agrees. -/
def fixedSt : St :=
  ⟨[⟨1, some "a.example.com", some "10.0.0.2/32"⟩],
   [("10.0.0.2", "a.example.com")]⟩

/-- A state with a genuinely stale snapshot pair: no row has IP
`8.8.8.8` and no row's domain resolves to it. -/
def purgeSt : St :=
  ⟨[⟨1, some "a.example.com", some "10.0.0.1/32"⟩],
   [("8.8.8.8", "old.example.com")]⟩

/-! ### Dictionary lemmas -/

theorem dlookup_append (m1 m2 : Snap) (k : String) :
    dlookup (m1 ++ m2) k =
      match dlookup m1 k with
      | some v => some v
      | none => dlookup m2 k := by
  induction m1 with
  | nil => simp [dlookup]
  | cons p rest ih =>
    by_cases h : p.1 = k
    · simp [dlookup, h]
    · simp [dlookup, h, ih]

theorem dlookup_dreplace_self (m : Snap) (k v : String) (h : dmem m k = true) :
    dlookup (dreplace m k v) k = some v := by
  induction m with
  | nil => simp [dmem, dlookup] at h
  | cons p rest ih =>
    by_cases hp : p.1 = k
    · simp [dreplace, hp, dlookup]
    · have h2 : dmem rest k = true := by
        simpa [dmem, dlookup, hp] using h
      simp [dreplace, hp, dlookup, ih h2]

theorem dlookup_dreplace_ne (m : Snap) (k v k2 : String) (h : k2 ≠ k) :
    dlookup (dreplace m k v) k2 = dlookup m k2 := by
  induction m with
  | nil => simp [dreplace]
  | cons p rest ih =>
    by_cases hp : p.1 = k
    · have hkk : k ≠ k2 := fun hk => h hk.symm
      simp [dreplace, hp, dlookup, hkk, ih]
    · simp [dreplace, hp, dlookup, ih]

theorem dlookup_dinsert_self (m : Snap) (k v : String) :
    dlookup (dinsert m k v) k = some v := by
  unfold dinsert
  by_cases h : dmem m k = true
  · simp [h, dlookup_dreplace_self m k v h]
  · have hno : dlookup m k = none := by
      cases hl : dlookup m k with
      | none => rfl
      | some w => exact absurd (by simp [dmem, hl]) h
    simp [h, dlookup_append, hno, dlookup]

theorem dlookup_dinsert_ne (m : Snap) (k v k2 : String) (h : k2 ≠ k) :
    dlookup (dinsert m k v) k2 = dlookup m k2 := by
  unfold dinsert
  by_cases hm : dmem m k = true
  · simp [hm, dlookup_dreplace_ne m k v k2 h]
  · have hkk : ¬ k = k2 := fun hk => h hk.symm
    simp [hm, dlookup_append, dlookup, hkk]
    cases dlookup m k2 <;> simp [dlookup, hkk]

theorem dlookup_derase_self (m : Snap) (k : String) :
    dlookup (derase m k) k = none := by
  induction m with
  | nil => simp [derase, dlookup]
  | cons p rest ih =>
    by_cases hp : p.1 = k
    · simpa [derase, hp] using ih
    · simpa [derase, dlookup, hp] using ih

theorem dlookup_derase_ne (m : Snap) (k k2 : String) (h : k2 ≠ k) :
    dlookup (derase m k) k2 = dlookup m k2 := by
  induction m with
  | nil => simp [derase]
  | cons p rest ih =>
    simp only [derase, List.filter_cons] at ih ⊢
    by_cases hp : p.1 = k
    · have hf : (p.1 != k) = false := by simp [hp]
      have hne : ¬ p.1 = k2 := by
        rw [hp]; exact fun hk => h hk.symm
      rw [hf]
      simp [dlookup, hne, ih]
    · have ht : (p.1 != k) = true := by simp [hp]
      rw [ht]
      by_cases hk2 : p.1 = k2 <;> simp [dlookup, hk2, ih]

theorem dlookup_derase_none (m : Snap) (k k2 : String)
    (h : dlookup m k2 = none) : dlookup (derase m k) k2 = none := by
  by_cases hk : k2 = k
  · simpa [hk] using dlookup_derase_self m k
  · simpa [dlookup_derase_ne m k k2 hk] using h

/-! ### Per-row lemmas about the resolution loop -/

theorem resolveRow_addrUpds (dns : String → Option String) (acc : ResAcc) (r : Row) :
    (resolveRow dns acc r).addrUpds = acc.addrUpds ++ rowAddrUpd dns r := by
  unfold resolveRow rowAddrUpd
  cases htr : truthy r.domain
  · simp
  · cases hdns : dns (r.domain.getD "") with
    | none => simp
    | some ipNew =>
      cases he : ipNew.isEmpty
      · by_cases hne : some ipNew ≠ rowIp r <;> simp [he, hne]
      · simp [he]

theorem resolveRow_patches (dns : String → Option String) (acc : ResAcc) (r : Row) :
    (resolveRow dns acc r).patches = acc.patches ++ rowPatches dns r := by
  unfold resolveRow rowPatches
  cases htr : truthy r.domain
  · simp
  · cases hdns : dns (r.domain.getD "") with
    | none => simp
    | some ipNew =>
      cases he : ipNew.isEmpty
      · by_cases hne : some ipNew ≠ rowIp r <;> simp [he, hne]
      · simp [he]

theorem resolveRow_reload (dns : String → Option String) (acc : ResAcc) (r : Row) :
    (resolveRow dns acc r).reload = (acc.reload || !(rowAddrUpd dns r).isEmpty) := by
  unfold resolveRow rowAddrUpd
  cases htr : truthy r.domain
  · simp
  · cases hdns : dns (r.domain.getD "") with
    | none => simp
    | some ipNew =>
      cases he : ipNew.isEmpty
      · by_cases hne : some ipNew ≠ rowIp r <;> simp [he, hne]
      · simp [he]

theorem rowPatches_nil (dns : String → Option String) (r : Row)
    (h : rowAddrUpd dns r = []) : rowPatches dns r = [] := by
  cases htr : truthy r.domain
  · simp [rowPatches, htr]
  · cases hdns : dns (r.domain.getD "") with
    | none => simp [rowPatches, htr, hdns]
    | some ipNew =>
      cases he : ipNew.isEmpty
      · by_cases hne : some ipNew ≠ rowIp r
        · rw [rowAddrUpd] at h
          simp [htr, hdns, he, hne] at h
        · simp [rowPatches, htr, hdns, he, hne]
      · simp [rowPatches, htr, hdns, he]

theorem resolveRow_snap_untouched (dns : String → Option String)
    (acc : ResAcc) (r : Row) (ip : String)
    (h : rowTouches dns r ip = false) :
    dlookup (resolveRow dns acc r).snap ip = dlookup acc.snap ip := by
  cases htr : truthy r.domain
  · simp [resolveRow, htr]
  · cases hdns : dns (r.domain.getD "") with
    | none => simp [resolveRow, htr, hdns]
    | some ipNew =>
      cases he : ipNew.isEmpty
      · rw [rowTouches] at h
        simp [htr, hdns, he] at h
        obtain ⟨hip, hri⟩ := h
        have hipne : ip ≠ ipNew := fun hk => hip hk.symm
        simp only [resolveRow, htr, if_true, hdns, he, Bool.false_eq_true,
          if_false, apply_ite ResAcc.snap, ite_self]
        cases hrip : rowIp r with
        | none => simp [dlookup_dinsert_ne _ _ _ _ hipne]
        | some ipo =>
          have hipo2 : ip ≠ ipo := fun hk => hri (by rw [hrip, ← hk])
          by_cases hd :
              (dmem (dinsert acc.snap ipNew (r.domain.getD "")) ipo
                && ipo != ipNew) = true
          · simp [hd, dlookup_derase_ne _ _ _ hipo2,
              dlookup_dinsert_ne _ _ _ _ hipne]
          · simp [hd, dlookup_dinsert_ne _ _ _ _ hipne]
      · simp [resolveRow, htr, hdns, he]

theorem resolveRow_snap_self (dns : String → Option String)
    (acc : ResAcc) (r : Row) (ip : String)
    (htr : truthy r.domain = true)
    (hdns : dns (r.domain.getD "") = some ip)
    (he : ip.isEmpty = false) :
    dlookup (resolveRow dns acc r).snap ip = some (r.domain.getD "") := by
  simp only [resolveRow, htr, if_true, hdns, he, Bool.false_eq_true,
    if_false, apply_ite ResAcc.snap, ite_self]
  cases hrip : rowIp r with
  | none => simp [dlookup_dinsert_self]
  | some ipo =>
    by_cases hd :
        (dmem (dinsert acc.snap ip (r.domain.getD "")) ipo
          && ipo != ip) = true
    · have hipo : ip ≠ ipo := by
        intro hk
        rw [← hk] at hd
        simp at hd
      simp [hd, dlookup_derase_ne _ _ _ hipo, dlookup_dinsert_self]
    · simp [hd, dlookup_dinsert_self]

theorem resolveRow_snap_none (dns : String → Option String)
    (acc : ResAcc) (r : Row) (ip : String)
    (h : rowResolvesTo dns r ip = false)
    (h0 : dlookup acc.snap ip = none) :
    dlookup (resolveRow dns acc r).snap ip = none := by
  cases htr : truthy r.domain
  · simpa [resolveRow, htr] using h0
  · cases hdns : dns (r.domain.getD "") with
    | none => simpa [resolveRow, htr, hdns] using h0
    | some ipNew =>
      cases he : ipNew.isEmpty
      · rw [rowResolvesTo] at h
        simp [htr, hdns, he] at h
        have hipne : ip ≠ ipNew := fun hk => h hk.symm
        have hs1 : dlookup (dinsert acc.snap ipNew (r.domain.getD "")) ip
            = none := by
          rw [dlookup_dinsert_ne _ _ _ _ hipne]; exact h0
        simp only [resolveRow, htr, if_true, hdns, he, Bool.false_eq_true,
          if_false, apply_ite ResAcc.snap, ite_self]
        cases hrip : rowIp r with
        | none => simpa using hs1
        | some ipo =>
          by_cases hd :
              (dmem (dinsert acc.snap ipNew (r.domain.getD "")) ipo
                && ipo != ipNew) = true
          · simp only [hd, if_true]
            exact dlookup_derase_none _ _ _ hs1
          · simpa [hd] using hs1
      · simpa [resolveRow, htr, hdns, he] using h0

/-! ### Fold lemmas for the resolution loop -/

theorem foldResolve_addrUpds (dns : String → Option String)
    (rows : List Row) (acc : ResAcc) :
    (rows.foldl (resolveRow dns) acc).addrUpds
      = acc.addrUpds ++ rows.flatMap (rowAddrUpd dns) := by
  induction rows generalizing acc with
  | nil => simp
  | cons r rest ih =>
    simp only [List.foldl_cons, List.flatMap_cons]
    rw [ih, resolveRow_addrUpds, List.append_assoc]

theorem foldResolve_patches (dns : String → Option String)
    (rows : List Row) (acc : ResAcc) :
    (rows.foldl (resolveRow dns) acc).patches
      = acc.patches ++ rows.flatMap (rowPatches dns) := by
  induction rows generalizing acc with
  | nil => simp
  | cons r rest ih =>
    simp only [List.foldl_cons, List.flatMap_cons]
    rw [ih, resolveRow_patches, List.append_assoc]

theorem foldResolve_reload (dns : String → Option String)
    (rows : List Row) (acc : ResAcc) :
    (rows.foldl (resolveRow dns) acc).reload
      = (acc.reload || rows.any (fun r => !(rowAddrUpd dns r).isEmpty)) := by
  induction rows generalizing acc with
  | nil => simp
  | cons r rest ih =>
    simp only [List.foldl_cons, List.any_cons]
    rw [ih, resolveRow_reload, Bool.or_assoc]

theorem foldResolve_snap_untouched (dns : String → Option String)
    (rows : List Row) (acc : ResAcc) (ip : String)
    (h : ∀ r ∈ rows, rowTouches dns r ip = false) :
    dlookup (rows.foldl (resolveRow dns) acc).snap ip = dlookup acc.snap ip := by
  induction rows generalizing acc with
  | nil => simp
  | cons r rest ih =>
    simp only [List.foldl_cons]
    rw [ih _ (fun r2 hr2 => h r2 (List.mem_cons_of_mem r hr2)),
      resolveRow_snap_untouched dns acc r ip (h r (List.mem_cons_self r rest))]

theorem foldResolve_snap_none (dns : String → Option String)
    (rows : List Row) (acc : ResAcc) (ip : String)
    (h : ∀ r ∈ rows, rowResolvesTo dns r ip = false)
    (h0 : dlookup acc.snap ip = none) :
    dlookup (rows.foldl (resolveRow dns) acc).snap ip = none := by
  induction rows generalizing acc with
  | nil => simpa using h0
  | cons r rest ih =>
    simp only [List.foldl_cons]
    exact ih _ (fun r2 hr2 => h r2 (List.mem_cons_of_mem r hr2))
      (resolveRow_snap_none dns acc r ip (h r (List.mem_cons_self r rest)) h0)

/-! ### Lemmas about the restore step -/

theorem restoreOne_fst_none (idx : Index) (acc : Snap × List (Nat × String))
    (p : String × String) (ip : String) (h : dlookup acc.1 ip = none) :
    dlookup (restoreOne idx acc p).1 ip = none := by
  unfold restoreOne
  cases tlookup idx (some p.1) with
  | none => exact dlookup_derase_none _ _ _ h
  | some r =>
    by_cases hd : r.domain = some p.2 <;> simp [hd, h]

theorem restoreFold_fst_none (idx : Index) (pending : Snap)
    (acc : Snap × List (Nat × String)) (ip : String)
    (h : dlookup acc.1 ip = none) :
    dlookup (pending.foldl (restoreOne idx) acc).1 ip = none := by
  induction pending generalizing acc with
  | nil => simpa using h
  | cons p rest ih =>
    simp only [List.foldl_cons]
    exact ih _ (restoreOne_fst_none idx acc p ip h)

theorem restoreFold_fst_erase (idx : Index) (ip : String)
    (hidx : tlookup idx (some ip) = none) (pending : Snap)
    (acc : Snap × List (Nat × String))
    (h : dlookup acc.1 ip = none ∨ pending.any (fun p => p.1 == ip) = true) :
    dlookup (pending.foldl (restoreOne idx) acc).1 ip = none := by
  induction pending generalizing acc with
  | nil =>
    rcases h with h | h
    · simpa using h
    · simp at h
  | cons p rest ih =>
    simp only [List.foldl_cons]
    by_cases hp : p.1 = ip
    · apply restoreFold_fst_none
      unfold restoreOne
      rw [hp, hidx]
      exact dlookup_derase_self _ _
    · rcases h with h | h
      · exact ih _ (Or.inl (restoreOne_fst_none idx acc p ip h))
      · simp only [List.any_cons, Bool.or_eq_true, beq_iff_eq] at h
        rcases h with h | h
        · exact absurd h hp
        · exact ih _ (Or.inr (by simpa using h))

theorem dlookup_any (m : Snap) (ip : String) (v : String)
    (h : dlookup m ip = some v) : m.any (fun p => p.1 == ip) = true := by
  induction m with
  | nil => simp [dlookup] at h
  | cons p rest ih =>
    by_cases hp : p.1 = ip
    · simp [hp]
    · rw [dlookup, if_neg hp] at h
      simp [ih h]

theorem restore_fst_none (idx : Index) (snap : Snap) (ip : String)
    (hidx : tlookup idx (some ip) = none) :
    dlookup (restoreStep idx snap).1 ip = none := by
  unfold restoreStep
  cases hl : dlookup snap ip with
  | none => exact restoreFold_fst_erase idx ip hidx snap (snap, []) (Or.inl hl)
  | some v =>
    exact restoreFold_fst_erase idx ip hidx snap (snap, [])
      (Or.inr (dlookup_any snap ip v hl))

theorem restoreOne_snd_mem (idx : Index) (acc : Snap × List (Nat × String))
    (p : String × String) (x : Nat × String) (h : x ∈ acc.2) :
    x ∈ (restoreOne idx acc p).2 := by
  unfold restoreOne
  cases tlookup idx (some p.1) with
  | none => exact h
  | some r =>
    by_cases hd : r.domain = some p.2 <;> simp [hd, h]

theorem restoreFold_snd_mem (idx : Index) (pending : Snap)
    (acc : Snap × List (Nat × String)) (x : Nat × String) (h : x ∈ acc.2) :
    x ∈ (pending.foldl (restoreOne idx) acc).2 := by
  induction pending generalizing acc with
  | nil => simpa using h
  | cons p rest ih =>
    simp only [List.foldl_cons]
    exact ih _ (restoreOne_snd_mem idx acc p x h)

theorem restoreFold_upd_of_mem (idx : Index) (ip d : String) (r : Row)
    (hidx : tlookup idx (some ip) = some r) (hne : r.domain ≠ some d)
    (pending : Snap) (acc : Snap × List (Nat × String))
    (hmem : (ip, d) ∈ pending) :
    (r.id, d) ∈ (pending.foldl (restoreOne idx) acc).2 := by
  induction pending generalizing acc with
  | nil => simp at hmem
  | cons p rest ih =>
    simp only [List.foldl_cons]
    rcases List.mem_cons.mp hmem with hp | hp
    · apply restoreFold_snd_mem
      unfold restoreOne
      rw [← hp]
      simp only [hidx, hne, if_false]
      simp
    · exact ih _ hp

theorem restore_upd_of_mem (idx : Index) (snap : Snap) (ip d : String)
    (r : Row) (hidx : tlookup idx (some ip) = some r)
    (hne : r.domain ≠ some d) (hmem : (ip, d) ∈ snap) :
    (r.id, d) ∈ (restoreStep idx snap).2 :=
  restoreFold_upd_of_mem idx ip d r hidx hne snap (snap, []) hmem

/-! ### Lemmas about committing the row updates -/

theorem foldDom_get (us : List (Nat × String)) (rows : List Row) (i : Nat) :
    (us.foldl applyDomainUpd rows)[i]? =
      (rows[i]?).map (fun r => us.foldl (fun r u => domUpdRow u r) r) := by
  induction us generalizing rows with
  | nil =>
    simp only [List.foldl_nil]
    cases rows[i]? <;> simp
  | cons u rest ih =>
    simp only [List.foldl_cons]
    rw [ih]
    show ((rows.map (domUpdRow u))[i]?).map _ = _
    rw [List.getElem?_map]
    cases rows[i]? <;> simp

theorem foldAddr_get (us : List (Nat × String)) (rows : List Row) (i : Nat) :
    (us.foldl applyAddrUpd rows)[i]? =
      (rows[i]?).map (fun r => us.foldl (fun r u => addrUpdRow u r) r) := by
  induction us generalizing rows with
  | nil =>
    simp only [List.foldl_nil]
    cases rows[i]? <;> simp
  | cons u rest ih =>
    simp only [List.foldl_cons]
    rw [ih]
    show ((rows.map (addrUpdRow u))[i]?).map _ = _
    rw [List.getElem?_map]
    cases rows[i]? <;> simp

theorem foldDomRow_address (us : List (Nat × String)) (r : Row) :
    (us.foldl (fun r u => domUpdRow u r) r).address = r.address := by
  induction us generalizing r with
  | nil => rfl
  | cons u rest ih =>
    simp only [List.foldl_cons]
    rw [ih]
    unfold domUpdRow
    by_cases h : r.id = u.1 <;> simp [h]

theorem foldDomRow_id (us : List (Nat × String)) (r : Row) :
    (us.foldl (fun r u => domUpdRow u r) r).id = r.id := by
  induction us generalizing r with
  | nil => rfl
  | cons u rest ih =>
    simp only [List.foldl_cons]
    rw [ih]
    unfold domUpdRow
    by_cases h : r.id = u.1 <;> simp [h]

theorem foldAddrRow_id (us : List (Nat × String)) (r : Row) :
    (us.foldl (fun r u => addrUpdRow u r) r).id = r.id := by
  induction us generalizing r with
  | nil => rfl
  | cons u rest ih =>
    simp only [List.foldl_cons]
    rw [ih]
    unfold addrUpdRow
    by_cases h : r.id = u.1 <;> simp [h]

theorem foldDomRow_skip (us : List (Nat × String)) (r : Row)
    (h : ∀ u ∈ us, u.1 ≠ r.id) :
    us.foldl (fun r u => domUpdRow u r) r = r := by
  induction us generalizing r with
  | nil => rfl
  | cons u rest ih =>
    simp only [List.foldl_cons]
    have h1 : ¬ r.id = u.1 :=
      fun hh => h u (List.mem_cons_self u rest) hh.symm
    have hstep : domUpdRow u r = r := by
      unfold domUpdRow
      simp [h1]
    rw [hstep]
    exact ih r (fun u2 hu2 => h u2 (List.mem_cons_of_mem u hu2))

theorem foldAddrRow_skip (us : List (Nat × String)) (r : Row)
    (h : ∀ u ∈ us, u.1 ≠ r.id) :
    us.foldl (fun r u => addrUpdRow u r) r = r := by
  induction us generalizing r with
  | nil => rfl
  | cons u rest ih =>
    simp only [List.foldl_cons]
    have h1 : ¬ r.id = u.1 :=
      fun hh => h u (List.mem_cons_self u rest) hh.symm
    have hstep : addrUpdRow u r = r := by
      unfold addrUpdRow
      simp [h1]
    rw [hstep]
    exact ih r (fun u2 hu2 => h u2 (List.mem_cons_of_mem u hu2))

theorem foldAddrRow_last (us1 us2 : List (Nat × String)) (r : Row) (a : String)
    (h2 : ∀ u ∈ us2, u.1 ≠ r.id) :
    ((us1 ++ (r.id, a) :: us2).foldl (fun r u => addrUpdRow u r) r).address
      = some a := by
  rw [List.foldl_append, List.foldl_cons]
  have hid1 : (us1.foldl (fun r u => addrUpdRow u r) r).id = r.id :=
    foldAddrRow_id us1 r
  have hstep :
      addrUpdRow (r.id, a) (us1.foldl (fun r u => addrUpdRow u r) r)
        = { us1.foldl (fun r u => addrUpdRow u r) r with address := some a } := by
    generalize hX : us1.foldl (fun r u => addrUpdRow u r) r = X at hid1 ⊢
    unfold addrUpdRow
    rw [if_pos (show X.id = (r.id, a).1 from hid1)]
  rw [hstep]
  rw [foldAddrRow_skip us2 _ (fun u hu => by simpa [hid1] using h2 u hu)]

theorem rowAddrUpd_fst (dns : String → Option String) (r : Row)
    (u : Nat × String) (h : u ∈ rowAddrUpd dns r) : u.1 = r.id := by
  cases htr : truthy r.domain
  · simp [rowAddrUpd, htr] at h
  · cases hdns : dns (r.domain.getD "") with
    | none => simp [rowAddrUpd, htr, hdns] at h
    | some ipNew =>
      cases he : ipNew.isEmpty
      · by_cases hne : some ipNew ≠ rowIp r
        · simp [rowAddrUpd, htr, hdns, he, hne] at h
          rw [h]
        · simp [rowAddrUpd, htr, hdns, he, hne] at h
      · simp [rowAddrUpd, htr, hdns, he] at h

/-! ### Projections of `runPass` -/

theorem runPass_domainUpds (dns : String → Option String) (s : St) :
    (runPass dns s).2.domainUpds
      = (restoreStep (table_by_ip s.rows) s.snap).2 := rfl

theorem runPass_addrUpds (dns : String → Option String) (s : St) :
    (runPass dns s).2.addrUpds = s.rows.flatMap (rowAddrUpd dns) := by
  show (s.rows.foldl (resolveRow dns)
      ⟨(restoreStep (table_by_ip s.rows) s.snap).1, [], [], false, 0⟩).addrUpds
    = _
  rw [foldResolve_addrUpds]
  rfl

theorem runPass_patches (dns : String → Option String) (s : St) :
    (runPass dns s).2.patches = s.rows.flatMap (rowPatches dns) := by
  show (s.rows.foldl (resolveRow dns)
      ⟨(restoreStep (table_by_ip s.rows) s.snap).1, [], [], false, 0⟩).patches
    = _
  rw [foldResolve_patches]
  rfl

theorem runPass_reload (dns : String → Option String) (s : St) :
    (runPass dns s).2.reload
      = s.rows.any (fun r => !(rowAddrUpd dns r).isEmpty) := by
  show (s.rows.foldl (resolveRow dns)
      ⟨(restoreStep (table_by_ip s.rows) s.snap).1, [], [], false, 0⟩).reload
    = _
  rw [foldResolve_reload]
  rfl

theorem runPass_snap (dns : String → Option String) (s : St) :
    (runPass dns s).1.snap
      = (s.rows.foldl (resolveRow dns)
          ⟨(restoreStep (table_by_ip s.rows) s.snap).1, [], [], false, 0⟩).snap
      := rfl

theorem runPass_rows_get (dns : String → Option String) (s : St) (i : Nat) :
    (runPass dns s).1.rows[i]? = (s.rows[i]?).map (fun r =>
      (runPass dns s).2.addrUpds.foldl (fun r u => addrUpdRow u r)
        ((runPass dns s).2.domainUpds.foldl (fun r u => domUpdRow u r) r)) := by
  show ((runPass dns s).2.addrUpds.foldl applyAddrUpd
      ((runPass dns s).2.domainUpds.foldl applyDomainUpd s.rows))[i]? = _
  rw [foldAddr_get, foldDom_get]
  cases s.rows[i]? <;> simp

/-! ### List helpers -/

theorem list_split_at {α : Type} (l : List α) (i : Nat) (x : α)
    (h : l[i]? = some x) :
    ∃ l1 l2, l = l1 ++ x :: l2 ∧ l1.length = i := by
  induction l generalizing i with
  | nil => simp at h
  | cons a rest ih =>
    cases i with
    | zero =>
      simp only [List.getElem?_cons_zero, Option.some_inj] at h
      exact ⟨[], rest, by simp [h], rfl⟩
    | succ n =>
      simp only [List.getElem?_cons_succ] at h
      obtain ⟨l1, l2, heq, hlen⟩ := ih n h
      exact ⟨a :: l1, l2, by simp [heq], by simp [hlen]⟩

theorem mem_suffix_get {α : Type} (l1 l2 : List α) (x y : α)
    (h : y ∈ l2) :
    ∃ j, l1.length < j ∧ (l1 ++ x :: l2)[j]? = some y := by
  obtain ⟨n, hn⟩ := List.get_of_mem h
  refine ⟨l1.length + 1 + n.1, by omega, ?_⟩
  rw [List.getElem?_append_right (by omega)]
  have : l1.length + 1 + n.1 - l1.length = n.1 + 1 := by omega
  rw [this]
  simp only [List.getElem?_cons_succ]
  rw [List.getElem?_eq_getElem n.2]
  simpa using congrArg some hn

theorem flatMap_nil_iff {α β : Type} (l : List α) (f : α → List β) :
    l.flatMap f = [] ↔ ∀ a ∈ l, f a = [] := by
  induction l with
  | nil => simp
  | cons a rest ih => simp [List.flatMap_cons, ih]

theorem any_false_iff {α : Type} (l : List α) (f : α → Bool) :
    l.any f = false ↔ ∀ a ∈ l, f a = false := by
  induction l with
  | nil => simp
  | cons a rest ih => simp [List.any_cons, ih]

theorem runPass_rows_id (dns : String → Option String) (s : St)
    (h1 : (runPass dns s).2.domainUpds = [])
    (h2 : (runPass dns s).2.addrUpds = []) :
    (runPass dns s).1.rows = s.rows := by
  show (runPass dns s).2.addrUpds.foldl applyAddrUpd
      ((runPass dns s).2.domainUpds.foldl applyDomainUpd s.rows) = s.rows
  rw [h1, h2]
  rfl

/-! ### Claim C6 -/

/-- C6: on the spec's worked example — one entry
`{id 1, domain a.example.com, address 10.0.0.1/32}`, empty snapshot,
and `a.example.com` resolving to `10.0.0.2` — one pass ends with the
entry's address `10.0.0.2/32`, the snapshot `{10.0.0.2: a.example.com}`
and the nginx reload triggered. -/
theorem C6_example :
    (runPass dnsA exSt).1.rows
        = [⟨1, some "a.example.com", some "10.0.0.2/32"⟩] ∧
    (runPass dnsA exSt).1.snap = [("10.0.0.2", "a.example.com")] ∧
    (runPass dnsA exSt).2.reload = true ∧
    (passEvents dnsA exSt).getLast? = some Ev.nginxReload :=
  ⟨rfl, rfl, rfl, rfl⟩

/-! ### Claim C9 -/

/-- C9: `load_config` returns the empty mapping whenever the snapshot
file is absent, unreadable, or holds malformed JSON (the bare `except`
swallows every error), so a corrupt snapshot file silently erases the
pass's durable memory instead of aborting the run. -/
theorem C9_load_config (parseJson : String → Option Snap) (f : ConfigFile)
    (h : f = ConfigFile.absent ∨ f = ConfigFile.unreadable ∨
      ∃ t, f = ConfigFile.content t ∧ parseJson t = none) :
    load_config parseJson f = [] := by
  rcases h with h | h | ⟨t, ht, hp⟩
  · rw [h]; rfl
  · rw [h]; rfl
  · rw [ht]; simp [load_config, hp]

/-- Witness for C9 at the three concrete file states. -/
theorem C9_load_config_wit :
    load_config (fun _ => none) ConfigFile.absent = [] ∧
    load_config (fun _ => none) ConfigFile.unreadable = [] ∧
    load_config (fun _ => none) (ConfigFile.content "not json") = [] :=
  ⟨C9_load_config (fun _ => none) ConfigFile.absent (Or.inl rfl),
   C9_load_config (fun _ => none) ConfigFile.unreadable (Or.inr (Or.inl rfl)),
   C9_load_config (fun _ => none) (ConfigFile.content "not json")
     (Or.inr (Or.inr ⟨"not json", rfl, rfl⟩))⟩

/-! ### Claim C10 -/

/-- C10: for a row whose `address` is `NULL` and whose domain resolves
to a non-empty IP, the resolution step issues the address row update and
sets the reload flag, but `update_ip_in_container` performs no `sed`
substitution (it returns early on a falsy old IP); and a row whose
domain resolves to the empty string is skipped entirely. -/
theorem C10_null_address (dns : String → Option String) (acc : ResAcc)
    (r : Row) (ip : String)
    (haddr : r.address = none)
    (htr : truthy r.domain = true)
    (hdns : dns (r.domain.getD "") = some ip)
    (hip : ip.isEmpty = false) :
    resolveRow dns acc r =
      { snap := dinsert acc.snap ip (r.domain.getD ""),
        addrUpds := acc.addrUpds ++ [(r.id, ip ++ "/32")],
        patches := acc.patches,
        reload := true,
        count := acc.count + 1 } ∧
    (∀ (dns2 : String → Option String) (acc2 : ResAcc) (r2 : Row),
      truthy r2.domain = true → dns2 (r2.domain.getD "") = some "" →
      resolveRow dns2 acc2 r2 = acc2) := by
  constructor
  · have hri : rowIp r = none := by simp [rowIp, truthy, haddr]
    have hne : some ip ≠ rowIp r := by rw [hri]; simp
    simp only [resolveRow, htr, if_true, hdns, hip, Bool.false_eq_true,
      if_false, hne, hri]
    simp [sedCalls]
  · intro dns2 acc2 r2 htr2 hdns2
    simp [resolveRow, htr2, hdns2, String.isEmpty]

/-- Witness for C10 at a concrete null-address row and a concrete
empty-resolution row. -/
theorem C10_null_address_wit :
    resolveRow dnsD ⟨[], [], [], false, 0⟩ ⟨1, some "d.example.com", none⟩ =
      ⟨[("9.9.9.9", "d.example.com")], [(1, "9.9.9.9/32")], [], true, 1⟩ ∧
    resolveRow (fun _ => some "") ⟨[], [], [], false, 0⟩
        ⟨2, some "x.example.com", some "1.2.3.4/32"⟩
      = ⟨[], [], [], false, 0⟩ :=
  ⟨(C10_null_address dnsD ⟨[], [], [], false, 0⟩
      ⟨1, some "d.example.com", none⟩ "9.9.9.9" rfl rfl rfl rfl).1,
   (C10_null_address dnsD ⟨[], [], [], false, 0⟩
      ⟨1, some "d.example.com", none⟩ "9.9.9.9" rfl rfl rfl rfl).2
     (fun _ => some "") ⟨[], [], [], false, 0⟩
     ⟨2, some "x.example.com", some "1.2.3.4/32"⟩ rfl rfl⟩

/-! ### Claim C3 -/

/-- C3 counterexample: with every prerequisite healthy except that the
container is absent, `npm_domain_check.py` exits 0 but
`remove_domain_column.py` exits 1 — the claim that either script exits 0
when the collaborator is absent fails for the second script. -/
theorem C3_cex :
    npm_domain_check_exit envAbsent = 0 ∧
    remove_domain_column_exit envAbsent = 1 ∧
    remove_domain_column_exit envAbsent ≠ 0 := by
  refine ⟨rfl, rfl, ?_⟩
  decide

/-- C3 amended: `npm_domain_check.py` exits 0 on success or when the
container is absent and 1 on fatal precondition failures, while
`remove_domain_column.py` treats an absent container as fatal and exits 1
(it exits 0 on success, including the no-op when the column is already
absent); both exit 1 when the driver is missing, the container query
fails, or the database connection fails. -/
theorem C3_exit_codes (e : SysEnv) :
    (e.mysqlDriver = true → e.dockerPsOk = true → e.containerListed = false →
      npm_domain_check_exit e = 0 ∧ remove_domain_column_exit e = 1) ∧
    (e.mysqlDriver = false →
      npm_domain_check_exit e = 1 ∧ remove_domain_column_exit e = 1) ∧
    (e.mysqlDriver = true → e.dockerPsOk = false →
      npm_domain_check_exit e = 1 ∧ remove_domain_column_exit e = 1) ∧
    (e.mysqlDriver = true → e.dockerPsOk = true → e.containerListed = true →
      e.dockerEnvOk = true →
      requiredVars.filter (fun v => !hasVar e.containerEnv v) = [] →
      e.dbConnectOk = false →
      npm_domain_check_exit e = 1 ∧ remove_domain_column_exit e = 1) ∧
    (e.mysqlDriver = true → e.dockerPsOk = true → e.containerListed = true →
      e.dockerEnvOk = true →
      requiredVars.filter (fun v => !hasVar e.containerEnv v) = [] →
      e.dbConnectOk = true → e.domainColumnExists = true →
      npm_domain_check_exit e = 0 ∧ remove_domain_column_exit e =
        (if e.alterTableOk then 0 else 1)) := by
  refine ⟨?_, ?_, ?_, ?_, ?_⟩
  · intro h1 h2 h3
    constructor <;> simp [npm_domain_check_exit, remove_domain_column_exit,
      h1, h2, h3]
  · intro h1
    constructor <;> simp [npm_domain_check_exit, remove_domain_column_exit, h1]
  · intro h1 h2
    constructor <;> simp [npm_domain_check_exit, remove_domain_column_exit,
      h1, h2]
  · intro h1 h2 h3 h4 h5 h6
    constructor <;> simp [npm_domain_check_exit, remove_domain_column_exit,
      h1, h2, h3, h4, h5, h6]
  · intro h1 h2 h3 h4 h5 h6 h7
    constructor <;> simp [npm_domain_check_exit, remove_domain_column_exit,
      h1, h2, h3, h4, h5, h6, h7]
    cases e.alterTableOk <;> simp

/-- Witness for C3 at the concrete environments. -/
theorem C3_exit_codes_wit :
    (npm_domain_check_exit envAbsent = 0 ∧
      remove_domain_column_exit envAbsent = 1) ∧
    (npm_domain_check_exit envNoDriver = 1 ∧
      remove_domain_column_exit envNoDriver = 1) ∧
    (npm_domain_check_exit envNoDb = 1 ∧
      remove_domain_column_exit envNoDb = 1) ∧
    (npm_domain_check_exit envOk = 0 ∧
      remove_domain_column_exit envOk = if envOk.alterTableOk then 0 else 1) :=
  ⟨(C3_exit_codes envAbsent).1 rfl rfl rfl,
   (C3_exit_codes envNoDriver).2.1 rfl,
   (C3_exit_codes envNoDb).2.2.2.1 rfl rfl rfl rfl (by decide) rfl,
   (C3_exit_codes envOk).2.2.2.2 rfl rfl rfl rfl (by decide) rfl rfl⟩

/-! ### Claim C2 -/

/-- C2 counterexample: on the worked example the trace is
`updAddr, sedPatch, saveSnap, dbCommit, nginxReload`, so the snapshot is
persisted to disk strictly before the database commit — the claimed
order (commit first, then snapshot) does not hold. -/
theorem C2_cex :
    passEvents dnsA exSt =
      [Ev.updAddr 1 "10.0.0.2/32", Ev.sedPatch "10.0.0.1" "10.0.0.2",
       Ev.saveSnap, Ev.dbCommit, Ev.nginxReload] ∧
    Ev.dbCommit ∈ passEvents dnsA exSt ∧
    Ev.saveSnap ∈ passEvents dnsA exSt ∧
    ¬ (passEvents dnsA exSt).indexOf Ev.dbCommit
        < (passEvents dnsA exSt).indexOf Ev.saveSnap := by
  refine ⟨rfl, ?_, ?_, ?_⟩ <;> decide

/-- C2 amended: in every pass all row mutations (domain updates, address
updates and `sed` patches) precede a single `save_config`/`conn.commit`
pair, with the snapshot saved to disk immediately BEFORE the one commit,
and the conditional nginx reload strictly after the commit. -/
theorem C2_commit_order (dns : String → Option String) (s : St) :
    ∃ pre, passEvents dns s =
        pre ++ [Ev.saveSnap, Ev.dbCommit]
          ++ (if (runPass dns s).2.reload then [Ev.nginxReload] else []) ∧
      (∀ e ∈ pre, isRowMutation e = true) ∧
      Ev.dbCommit ∉ pre ∧ Ev.saveSnap ∉ pre ∧ Ev.nginxReload ∉ pre := by
  refine ⟨(restoreStep (table_by_ip s.rows) s.snap).2.map
      (fun u => Ev.updDomain u.1 u.2) ++ s.rows.flatMap (rowEvents dns),
    ?_, ?_⟩
  · rfl
  · have hpre : ∀ e ∈ (restoreStep (table_by_ip s.rows) s.snap).2.map
        (fun u => Ev.updDomain u.1 u.2) ++ s.rows.flatMap (rowEvents dns),
        isRowMutation e = true := by
      intro e he
      rcases List.mem_append.mp he with he | he
      · obtain ⟨u, _, rfl⟩ := List.mem_map.mp he
        rfl
      · obtain ⟨r, _, hr⟩ := List.mem_flatMap.mp he
        rcases List.mem_append.mp hr with hr | hr
        · obtain ⟨u, _, rfl⟩ := List.mem_map.mp hr
          rfl
        · obtain ⟨u, _, rfl⟩ := List.mem_map.mp hr
          rfl
    refine ⟨hpre, ?_, ?_, ?_⟩ <;> intro hmem <;>
      simpa [isRowMutation] using hpre _ hmem

/-! ### Claim C1 -/

/-- C1 counterexample: for the entry `{id 1, domain NULL,
address 10.0.0.1/32}` with snapshot `{10.0.0.1: a.example.com}` and
`a.example.com` resolving to `10.0.0.2`, one pass restores the stored
domain but issues no address update and no reload: the same pass does
NOT resolve the restored domain (the address stays `10.0.0.1/32`). -/
theorem C1_cex :
    dnsA "a.example.com" = some "10.0.0.2" ∧
    (runPass dnsA clearedSt).2.domainUpds = [(1, "a.example.com")] ∧
    (runPass dnsA clearedSt).1.rows
      = [⟨1, some "a.example.com", some "10.0.0.1/32"⟩] ∧
    (runPass dnsA clearedSt).2.addrUpds = [] ∧
    (runPass dnsA clearedSt).2.reload = false :=
  ⟨rfl, rfl, rfl, rfl, rfl⟩

/-- C1 amended: when an entry's stored domain was cleared and its IP
matches a snapshot pair, the pass issues the domain-restoring update,
but the resolution step reads the rows as fetched before the restore:
the cleared entry is skipped by resolution in the same pass (it
contributes no address update), so the restored domain can only be
resolved by a subsequent pass. -/
theorem C1_restore_deferred (dns : String → Option String) (s : St)
    (ip d : String) (r : Row)
    (hmem : (ip, d) ∈ s.snap)
    (hidx : tlookup (table_by_ip s.rows) (some ip) = some r)
    (hcl : r.domain = none) :
    (r.id, d) ∈ (runPass dns s).2.domainUpds ∧
    rowAddrUpd dns r = [] ∧
    (∀ acc, resolveRow dns acc r = acc) := by
  refine ⟨?_, ?_, ?_⟩
  · rw [runPass_domainUpds]
    exact restore_upd_of_mem _ _ ip d r hidx (by simp [hcl]) hmem
  · simp [rowAddrUpd, hcl, truthy]
  · intro acc
    simp [resolveRow, hcl, truthy]

/-- Witness for C1 at the concrete cleared-domain state. -/
theorem C1_restore_deferred_wit :
    (1, "a.example.com") ∈ (runPass dnsA clearedSt).2.domainUpds ∧
    rowAddrUpd dnsA ⟨1, none, some "10.0.0.1/32"⟩ = [] :=
  ⟨(C1_restore_deferred dnsA clearedSt "10.0.0.1" "a.example.com"
      ⟨1, none, some "10.0.0.1/32"⟩ (by decide) rfl rfl).1,
   (C1_restore_deferred dnsA clearedSt "10.0.0.1" "a.example.com"
      ⟨1, none, some "10.0.0.1/32"⟩ (by decide) rfl rfl).2.1⟩

/-! ### Claim C4 -/

/-- C4 counterexample: starting from the cleared-domain state, the first
pass only restores the domain; the second pass — with the same DNS
answers and no external change — still updates the row's address,
patches the configuration and changes the snapshot, so the second run's
mutations are not zero. -/
theorem C4_cex :
    (runPass dnsA ((runPass dnsA clearedSt).1)).2.addrUpds
      = [(1, "10.0.0.2/32")] ∧
    (runPass dnsA ((runPass dnsA clearedSt).1)).2.patches
      = [("10.0.0.1", "10.0.0.2")] ∧
    (runPass dnsA ((runPass dnsA clearedSt).1)).1.snap
      ≠ ((runPass dnsA clearedSt).1).snap := by
  refine ⟨rfl, rfl, ?_⟩
  decide

/-- C4 amended: a pass that performs zero mutations (no domain updates,
no address updates, snapshot unchanged) is a fixed point: the next run
also performs zero row updates, zero patches, no reload, and leaves the
state unchanged.  In general a pass that does mutate (e.g. one that
restores a cleared domain) can be followed by a second mutating run. -/
theorem C4_fixed_point (dns : String → Option String) (s : St)
    (h1 : (runPass dns s).2.domainUpds = [])
    (h2 : (runPass dns s).2.addrUpds = [])
    (h3 : (runPass dns s).1.snap = s.snap) :
    (runPass dns ((runPass dns s).1)).2.domainUpds = [] ∧
    (runPass dns ((runPass dns s).1)).2.addrUpds = [] ∧
    (runPass dns ((runPass dns s).1)).2.patches = [] ∧
    (runPass dns ((runPass dns s).1)).2.reload = false ∧
    (runPass dns ((runPass dns s).1)).1 = (runPass dns s).1 := by
  have hrows : (runPass dns s).1.rows = s.rows := runPass_rows_id dns s h1 h2
  have hst : (runPass dns s).1 = s := by
    rw [show (runPass dns s).1
        = ⟨(runPass dns s).1.rows, (runPass dns s).1.snap⟩ from rfl,
      hrows, h3]
  have hrow : ∀ r ∈ s.rows, rowAddrUpd dns r = [] := by
    rw [runPass_addrUpds] at h2
    exact (flatMap_nil_iff s.rows (rowAddrUpd dns)).mp h2
  have hpatch : (runPass dns s).2.patches = [] := by
    rw [runPass_patches]
    exact (flatMap_nil_iff s.rows (rowPatches dns)).mpr
      (fun r hr => rowPatches_nil dns r (hrow r hr))
  have hrel : (runPass dns s).2.reload = false := by
    rw [runPass_reload]
    exact (any_false_iff s.rows _).mpr (fun r hr => by simp [hrow r hr])
  rw [hst]
  exact ⟨h1, h2, hpatch, hrel, hst⟩

/-- Witness for C4 at a concrete already-converged state. -/
theorem C4_fixed_point_wit :
    (runPass dnsA ((runPass dnsA fixedSt).1)).2.addrUpds = [] ∧
    (runPass dnsA ((runPass dnsA fixedSt).1)).2.patches = [] ∧
    (runPass dnsA ((runPass dnsA fixedSt).1)).1 = (runPass dnsA fixedSt).1 :=
  ⟨(C4_fixed_point dnsA fixedSt rfl rfl rfl).2.1,
   (C4_fixed_point dnsA fixedSt rfl rfl rfl).2.2.1,
   (C4_fixed_point dnsA fixedSt rfl rfl rfl).2.2.2.2⟩

/-! ### Claim C7 -/

/-- C7 counterexample: the snapshot pair `(9.9.9.9, d.example.com)` is
stale (no entry's IP is `9.9.9.9`), yet after one pass it is present in
the persisted snapshot, because the row whose domain resolves to
`9.9.9.9` re-adds it after the restore step dropped it. -/
theorem C7_cex :
    dlookup staleSt.snap "9.9.9.9" = some "d.example.com" ∧
    tlookup (table_by_ip staleSt.rows) (some "9.9.9.9") = none ∧
    dlookup (runPass dnsD staleSt).1.snap "9.9.9.9"
      = some "d.example.com" :=
  ⟨rfl, rfl, rfl⟩

/-- C7 amended: a snapshot key matching no current entry's IP is absent
from the persisted snapshot, provided no entry's domain resolves to that
IP during the pass (otherwise the resolution step re-adds the key). -/
theorem C7_purge (dns : String → Option String) (s : St) (ip : String)
    (hidx : tlookup (table_by_ip s.rows) (some ip) = none)
    (hres : ∀ r ∈ s.rows, rowResolvesTo dns r ip = false) :
    dlookup (runPass dns s).1.snap ip = none := by
  rw [runPass_snap]
  exact foldResolve_snap_none dns s.rows _ ip hres
    (restore_fst_none _ s.snap ip hidx)

/-- Witness for C7 at a concrete state with a genuinely stale pair. -/
theorem C7_purge_wit :
    dlookup (runPass dnsA purgeSt).1.snap "8.8.8.8" = none :=
  C7_purge dnsA purgeSt "8.8.8.8" rfl (by decide)

/-- Witness for C2 at the worked example. -/
theorem C2_commit_order_wit :
    ∃ pre, passEvents dnsA exSt =
        pre ++ [Ev.saveSnap, Ev.dbCommit]
          ++ (if (runPass dnsA exSt).2.reload then [Ev.nginxReload] else []) ∧
      (∀ e ∈ pre, isRowMutation e = true) ∧
      Ev.dbCommit ∉ pre ∧ Ev.saveSnap ∉ pre ∧ Ev.nginxReload ∉ pre :=
  C2_commit_order dnsA exSt

/-! ### Claim C8 -/

/-- C8: a resolution failure for one entry's domain only skips that
entry — the accumulator is passed through unchanged, the entry issues no
address update, and the committed row at its position is exactly the
original row — while every entry's address updates are determined by
that entry and the DNS answers alone, so other entries are still
resolved and updated in the same pass. -/
theorem C8_isolation (dns : String → Option String) (s : St) (i : Nat)
    (r : Row)
    (hi : s.rows[i]? = some r)
    (htr : truthy r.domain = true)
    (hfail : dns (r.domain.getD "") = none)
    (hnorestore : ∀ u ∈ (runPass dns s).2.domainUpds, u.1 ≠ r.id)
    (hnd : (s.rows.map Row.id).Nodup) :
    (∀ acc, resolveRow dns acc r = acc) ∧
    (runPass dns s).2.addrUpds = s.rows.flatMap (rowAddrUpd dns) ∧
    rowAddrUpd dns r = [] ∧
    (runPass dns s).1.rows[i]? = some r := by
  have hskip : rowAddrUpd dns r = [] := by
    simp [rowAddrUpd, htr, hfail]
  have hr_mem : r ∈ s.rows := by
    obtain ⟨l1, l2, heq, _⟩ := list_split_at s.rows i r hi
    rw [heq]
    simp
  have hinj := List.inj_on_of_nodup_map hnd
  have haddr_ne : ∀ u ∈ (runPass dns s).2.addrUpds, u.1 ≠ r.id := by
    rw [runPass_addrUpds]
    intro u hu hcon
    obtain ⟨r2, hr2, hur2⟩ := List.mem_flatMap.mp hu
    have hid := rowAddrUpd_fst dns r2 u hur2
    have hr2r : r2 = r := hinj hr2 hr_mem (by rw [← hid, hcon])
    rw [hr2r, hskip] at hur2
    simp at hur2
  refine ⟨?_, runPass_addrUpds dns s, hskip, ?_⟩
  · intro acc
    simp [resolveRow, htr, hfail]
  · rw [runPass_rows_get dns s i, hi]
    show some ((runPass dns s).2.addrUpds.foldl (fun r u => addrUpdRow u r)
      ((runPass dns s).2.domainUpds.foldl (fun r u => domUpdRow u r) r))
      = some r
    rw [foldDomRow_skip _ _ hnorestore, foldAddrRow_skip _ _ haddr_ne]

/-- Witness for C8: two rows, the first unresolvable, the second
resolved and updated in the same pass. -/
theorem C8_isolation_wit :
    rowAddrUpd dnsFail ⟨1, some "b.example.com", some "10.0.0.9/32"⟩ = [] ∧
    (runPass dnsFail twoRowSt).2.addrUpds
      = twoRowSt.rows.flatMap (rowAddrUpd dnsFail) ∧
    (runPass dnsFail twoRowSt).1.rows[0]?
      = some ⟨1, some "b.example.com", some "10.0.0.9/32"⟩ :=
  ⟨(C8_isolation dnsFail twoRowSt 0
      ⟨1, some "b.example.com", some "10.0.0.9/32"⟩
      rfl rfl rfl (by decide) (by decide)).2.2.1,
   (C8_isolation dnsFail twoRowSt 0
      ⟨1, some "b.example.com", some "10.0.0.9/32"⟩
      rfl rfl rfl (by decide) (by decide)).2.1,
   (C8_isolation dnsFail twoRowSt 0
      ⟨1, some "b.example.com", some "10.0.0.9/32"⟩
      rfl rfl rfl (by decide) (by decide)).2.2.2⟩

/-! ### Claim C5 -/

/-- C5 counterexample: the entry `{id 1, domain a.example.com,
address 10.0.0.2/24}` resolves to `10.0.0.2`, which equals its current
stripped IP, so the pass leaves the address `10.0.0.2/24` — not the
claimed `10.0.0.2/32`. -/
theorem C5_cex :
    truthy (⟨1, some "a.example.com", some "10.0.0.2/24"⟩ : Row).domain
      = true ∧
    dnsA "a.example.com" = some "10.0.0.2" ∧
    (runPass dnsA suffixSt).1.rows
      = [⟨1, some "a.example.com", some "10.0.0.2/24"⟩] ∧
    some "10.0.0.2/24" ≠ some ("10.0.0.2" ++ "/32") := by
  refine ⟨rfl, rfl, rfl, ?_⟩
  decide

/-- C5 amended: after a pass, an entry whose domain resolved to `ip`
has address exactly `ip/32` when `ip` differs from its previous stripped
IP; when they coincide the address is left unchanged (keeping whatever
CIDR suffix it had).  The persisted snapshot maps `ip` to that entry's
domain provided no later row resolves to `ip` or carries `ip` as its
previous address (a later row may overwrite or delete the key). -/
theorem C5_invariant (dns : String → Option String) (s : St) (i : Nat)
    (r : Row) (ip : String)
    (hnd : (s.rows.map Row.id).Nodup)
    (hi : s.rows[i]? = some r)
    (htr : truthy r.domain = true)
    (hdns : dns (r.domain.getD "") = some ip)
    (hip : ip.isEmpty = false)
    (hlast : ∀ j r2, i < j → s.rows[j]? = some r2 →
      rowTouches dns r2 ip = false) :
    (∃ r3, (runPass dns s).1.rows[i]? = some r3 ∧
      r3.address =
        (if some ip ≠ rowIp r then some (ip ++ "/32") else r.address)) ∧
    dlookup (runPass dns s).1.snap ip = some (r.domain.getD "") := by
  obtain ⟨l1, l2, heq, hlen⟩ := list_split_at s.rows i r hi
  have hnd2 : ((l1 ++ r :: l2).map Row.id).Nodup := by
    rw [← heq]
    exact hnd
  rw [List.map_append, List.map_cons, List.nodup_append] at hnd2
  obtain ⟨hndl1, hndr, hdisj⟩ := hnd2
  have hnotin1 : r.id ∉ l1.map Row.id :=
    fun hmem => hdisj hmem (List.mem_cons_self _ _)
  have hnotin2 : r.id ∉ l2.map Row.id := (List.nodup_cons.mp hndr).1
  have hu1 : ∀ u ∈ l1.flatMap (rowAddrUpd dns), u.1 ≠ r.id := by
    intro u hu hcon
    obtain ⟨r2, hr2, hur2⟩ := List.mem_flatMap.mp hu
    apply hnotin1
    rw [← hcon, rowAddrUpd_fst dns r2 u hur2]
    exact List.mem_map_of_mem Row.id hr2
  have hu2 : ∀ u ∈ l2.flatMap (rowAddrUpd dns), u.1 ≠ r.id := by
    intro u hu hcon
    obtain ⟨r2, hr2, hur2⟩ := List.mem_flatMap.mp hu
    apply hnotin2
    rw [← hcon, rowAddrUpd_fst dns r2 u hur2]
    exact List.mem_map_of_mem Row.id hr2
  have htouch2 : ∀ r2 ∈ l2, rowTouches dns r2 ip = false := by
    intro r2 h2
    obtain ⟨j, hj, hget⟩ := mem_suffix_get l1 l2 r r2 h2
    refine hlast j r2 (by omega) ?_
    rw [heq]
    exact hget
  have hsnap : dlookup (runPass dns s).1.snap ip
      = some (r.domain.getD "") := by
    rw [runPass_snap, heq, List.foldl_append, List.foldl_cons]
    rw [foldResolve_snap_untouched dns l2 _ ip htouch2]
    exact resolveRow_snap_self dns _ r ip htr hdns hip
  refine ⟨?_, hsnap⟩
  rw [runPass_rows_get dns s i, hi]
  refine ⟨(runPass dns s).2.addrUpds.foldl (fun r u => addrUpdRow u r)
      ((runPass dns s).2.domainUpds.foldl (fun r u => domUpdRow u r) r),
    rfl, ?_⟩
  have hXid : ((runPass dns s).2.domainUpds.foldl
      (fun r u => domUpdRow u r) r).id = r.id := foldDomRow_id _ _
  have hXaddr : ((runPass dns s).2.domainUpds.foldl
      (fun r u => domUpdRow u r) r).address = r.address :=
    foldDomRow_address _ _
  by_cases hcase : some ip ≠ rowIp r
  · have hupd : rowAddrUpd dns r = [(r.id, ip ++ "/32")] := by
      simp [rowAddrUpd, htr, hdns, hip, hcase]
    have hlist : (runPass dns s).2.addrUpds
        = l1.flatMap (rowAddrUpd dns)
          ++ (((runPass dns s).2.domainUpds.foldl
              (fun r u => domUpdRow u r) r).id, ip ++ "/32")
            :: l2.flatMap (rowAddrUpd dns) := by
      rw [runPass_addrUpds, heq, List.flatMap_append, List.flatMap_cons,
        hupd, hXid]
      rfl
    rw [if_pos hcase, hlist]
    exact foldAddrRow_last _ _ _ _
      (fun u hu => by rw [hXid]; exact hu2 u hu)
  · have hupd : rowAddrUpd dns r = [] := by
      simp only [rowAddrUpd, htr, if_true, hdns, hip, Bool.false_eq_true,
        if_false, hcase]
    have hlist : (runPass dns s).2.addrUpds
        = l1.flatMap (rowAddrUpd dns) ++ l2.flatMap (rowAddrUpd dns) := by
      rw [runPass_addrUpds, heq, List.flatMap_append, List.flatMap_cons,
        hupd]
      rfl
    have hall : ∀ u ∈ (runPass dns s).2.addrUpds, u.1 ≠
        ((runPass dns s).2.domainUpds.foldl (fun r u => domUpdRow u r) r).id := by
      intro u hu
      rw [hXid]
      rw [hlist] at hu
      rcases List.mem_append.mp hu with hu | hu
      · exact hu1 u hu
      · exact hu2 u hu
    rw [if_neg hcase, foldAddrRow_skip _ _ hall, hXaddr]

/-- Witness for C5 at the worked example (prior IP differs from the
resolved IP, so the final address is exactly `10.0.0.2/32`). -/
theorem C5_invariant_wit :
    (∃ r3, (runPass dnsA exSt).1.rows[0]? = some r3 ∧
      r3.address =
        (if some "10.0.0.2"
            ≠ rowIp ⟨1, some "a.example.com", some "10.0.0.1/32"⟩ then
          some ("10.0.0.2" ++ "/32")
        else some "10.0.0.1/32")) ∧
    dlookup (runPass dnsA exSt).1.snap "10.0.0.2"
      = some "a.example.com" :=
  C5_invariant dnsA exSt 0 ⟨1, some "a.example.com", some "10.0.0.1/32"⟩
    "10.0.0.2" (by decide) rfl rfl rfl rfl
    (fun j r2 hj hget => by
      cases j with
      | zero => omega
      | succ n => simp [exSt] at hget)

end NpmDomainCheck
